import Mathlib

/-!
Verification of the lfest-rs futures-exchange simulator core.

Shallow embedding of the repository's position, price-filter, market-state
and validator code.  Money amounts (the fixed-point decimal `QuoteCurrency`,
`BaseCurrency` and `Decimal` types of the source) are modelled as rationals
`ℚ`, which represent every decimal fixed-point value exactly.  Fallible Rust
functions returning `Result` are modelled with `Except`; functions mutating
`&mut self` return the new state explicitly.
-/

/-- Side of an order or trade, from the source `Side` enum. -/
inductive Side where
  | buy
  | sell
deriving DecidableEq, Repr

/-- The two futures flavors, from the source `FuturesTypes` enum:
linear (collateral in quote currency) and inverse (collateral in base). -/
inductive FuturesTypes where
  | linear
  | inverse
deriving DecidableEq, Repr

/-- Errors returned by order validation, from the source `OrderError` enum
(only the variants the verified functions produce are listed). -/
inductive OrderError where
  | limitPriceBelowMin
  | limitPriceAboveMax
  | invalidOrderPriceStepSize
  | limitPriceAboveMultiple
  | limitPriceBelowMultiple
  | invalidLimitPrice
  | notEnoughAvailableBalance
deriving DecidableEq, Repr

/-- Errors returned by market-update validation and position opening, from
the source `Error` enum. -/
inductive Error where
  | invalidMarketUpdateBidAskSpread
  | marketUpdatePriceTooLow
  | marketUpdatePriceTooHigh
  | marketUpdatePriceStepSize
  | invalidPrice
deriving DecidableEq, Repr

/-- Conversion of an amount denominated in the size currency into the margin
currency at a price, from the source `convert` (linear: `x * p`, since the
size currency is base and the margin currency quote; inverse: `x / p`). -/
def convertSize (ft : FuturesTypes) (x price : ℚ) : ℚ :=
  match ft with
  | .linear => x * price
  | .inverse => x / price

/-- Profit and loss of `quantity` contracts opened at `entry` and closed at
`exit_`, denominated in the margin currency, from the source `pnl` functions:
linear `(exit − entry) · quantity`, inverse `quantity · (1/entry − 1/exit)`. -/
def pnl (ft : FuturesTypes) (entry exit_ quantity : ℚ) : ℚ :=
  match ft with
  | .linear => (exit_ - entry) * quantity
  | .inverse => quantity * (1 / entry - 1 / exit_)

/-- The isolated position state, from `src/position.rs` (`Position<M>`).
The generic margin currency `M` is encoded by passing a `FuturesTypes` tag to
the operations that convert between currencies. -/
structure Position where
  /-- Number of futures contracts, signed; denominated in `M::PairedCurrency`. -/
  size : ℚ
  /-- Volume-weighted entry price of the position. -/
  entry_price : ℚ
  /-- Collateral backing the position, denominated in `M`. -/
  position_margin : ℚ
  /-- The position leverage. -/
  leverage : ℚ
deriving DecidableEq, Repr

/-- Position.open_position from `src/position.rs`: errors with
`InvalidPrice` when `price ≤ 0`, otherwise overwrites `size`, `entry_price`
and `position_margin` unconditionally. -/
def Position.open_position (pos : Position) (size price position_margin : ℚ) :
    Except Error Position :=
  if price ≤ 0 then
    .error .invalidPrice
  else
    .ok { pos with size := size, entry_price := price, position_margin := position_margin }

/-- Position.increase_long from `src/position.rs`: volume-weighted entry
price update, size grows by `quantity`, margin grows by `additional_margin`. -/
def Position.increase_long (pos : Position) (quantity price additional_margin : ℚ) :
    Position :=
  let new_size := pos.size + quantity
  { pos with
    entry_price := (pos.entry_price * pos.size + price * quantity) / new_size
    size := new_size
    position_margin := pos.position_margin + additional_margin }

/-- Position.decrease_long from `src/position.rs`: shrinks the size, then
re-derives the position margin as `|size|` converted at the entry price and
divided by leverage, and returns the realized profit and loss. -/
def Position.decrease_long (ft : FuturesTypes) (pos : Position) (quantity price : ℚ) :
    ℚ × Position :=
  let new_size := pos.size - quantity
  let new_margin := convertSize ft |new_size| pos.entry_price / pos.leverage
  (pnl ft pos.entry_price price quantity,
   { pos with size := new_size, position_margin := new_margin })

/-- Position.decrease_short from `src/position.rs`: grows the (negative)
size by `quantity` and returns the realized profit and loss of `−quantity`
contracts; no other field is written.  The Rust function wraps the result in
`Result` but always returns `Ok`. -/
def Position.decrease_short (ft : FuturesTypes) (pos : Position) (quantity price : ℚ) :
    ℚ × Position :=
  (pnl ft pos.entry_price price (-quantity), { pos with size := pos.size + quantity })

/-- Position.increase_short from `src/position.rs`: magnitude-weighted entry
price update, size shrinks by `quantity`, margin grows by `additional_margin`. -/
def Position.increase_short (pos : Position) (quantity price additional_margin : ℚ) :
    Position :=
  let new_size := pos.size - quantity
  { pos with
    entry_price := (pos.entry_price * |pos.size| + price * quantity) / |new_size|
    size := new_size
    position_margin := pos.position_margin + additional_margin }

/-- C3: decrease_long on a long position with `0 < q ≤ size` returns the
realized P&L `pnl(entry_price, p, q)`, decreases the size by `q`, re-derives
the position margin as `|new size|` converted at the entry price divided by
leverage, and leaves `entry_price` and `leverage` unchanged. -/
theorem decrease_long_spec (ft : FuturesTypes) (pos : Position) (q p : ℚ)
    (hpos : 0 < pos.size) (hq : 0 < q) (hle : q ≤ pos.size) :
    Position.decrease_long ft pos q p =
      (pnl ft pos.entry_price p q,
       { size := pos.size - q
         entry_price := pos.entry_price
         position_margin := convertSize ft |pos.size - q| pos.entry_price / pos.leverage
         leverage := pos.leverage }) := by
  rfl

/-- Witness for C3 at a concrete long position. -/
theorem decrease_long_spec_witness :
    (0 : ℚ) < 5 ∧ (0 : ℚ) < 2 ∧ (2 : ℚ) ≤ 5 ∧
    Position.decrease_long .linear ⟨5, 100, 500, 1⟩ 2 110 =
      (20, { size := 3, entry_price := 100, position_margin := 300, leverage := 1 }) := by
  refine ⟨by norm_num, by norm_num, by norm_num, ?_⟩
  rw [decrease_long_spec .linear ⟨5, 100, 500, 1⟩ 2 110 (by norm_num) (by norm_num)
    (by norm_num)]
  norm_num [pnl, convertSize, Prod.ext_iff, Position.mk.injEq]

/-- C4 counterexample: decrease_short does not re-derive the position
margin.  For the short position (size −2, entry 100, margin 200, leverage 1)
under linear futures, reducing by 1 leaves the margin at 200, not at the
claimed `|new size| · entry_price / leverage = 100`. -/
theorem decrease_short_margin_counterexample :
    (Position.decrease_short .linear ⟨-2, 100, 200, 1⟩ 1 100).2.position_margin = 200 ∧
    convertSize .linear |(-2 : ℚ) + 1| 100 / 1 = 100 ∧
    (Position.decrease_short .linear ⟨-2, 100, 200, 1⟩ 1 100).2.position_margin ≠
      convertSize .linear |(-2 : ℚ) + 1| 100 / 1 := by
  refine ⟨rfl, by norm_num [convertSize], ?_⟩
  simp only [Position.decrease_short, convertSize]
  norm_num

/-- C4 (amended): decrease_short on a short position with `0 < q ≤ |size|`
increases the size by `q`, returns the realized P&L `pnl(entry_price, p, −q)`,
and leaves `entry_price`, `position_margin` and `leverage` unchanged (the
position margin is not re-derived). -/
theorem decrease_short_spec (ft : FuturesTypes) (pos : Position) (q p : ℚ)
    (hpos : pos.size < 0) (hq : 0 < q) (hle : q ≤ |pos.size|) :
    Position.decrease_short ft pos q p =
      (pnl ft pos.entry_price p (-q),
       { size := pos.size + q
         entry_price := pos.entry_price
         position_margin := pos.position_margin
         leverage := pos.leverage }) := by
  rfl

/-- Witness for the amended C4 at a concrete short position. -/
theorem decrease_short_spec_witness :
    (-2 : ℚ) < 0 ∧ (0 : ℚ) < 1 ∧ (1 : ℚ) ≤ |(-2 : ℚ)| ∧
    Position.decrease_short .linear ⟨-2, 100, 200, 1⟩ 1 100 =
      (0, { size := -1, entry_price := 100, position_margin := 200, leverage := 1 }) := by
  refine ⟨by norm_num, by norm_num, by norm_num, ?_⟩
  rw [decrease_short_spec .linear ⟨-2, 100, 200, 1⟩ 1 100 (by norm_num) (by norm_num)
    (by norm_num)]
  norm_num [pnl, Prod.ext_iff, Position.mk.injEq]

/-- C5: increase_long on a non-short position with `q > 0` sets the entry
price to the volume-weighted average `(entry·size + p·q)/(size + q)`,
increases the size by `q`, increases the position margin by `m`, and leaves
the leverage unchanged. -/
theorem increase_long_spec (pos : Position) (q p m : ℚ)
    (hpos : 0 ≤ pos.size) (hq : 0 < q) :
    Position.increase_long pos q p m =
      { size := pos.size + q
        entry_price := (pos.entry_price * pos.size + p * q) / (pos.size + q)
        position_margin := pos.position_margin + m
        leverage := pos.leverage } := by
  rfl

/-- Witness for C5 at a concrete flat position. -/
theorem increase_long_spec_witness :
    (0 : ℚ) ≤ 0 ∧ (0 : ℚ) < 3 ∧
    Position.increase_long ⟨0, 0, 0, 2⟩ 3 50 75 =
      { size := 3, entry_price := 50, position_margin := 75, leverage := 2 } := by
  refine ⟨le_refl 0, by norm_num, ?_⟩
  rw [increase_long_spec ⟨0, 0, 0, 2⟩ 3 50 75 (le_refl 0) (by norm_num)]
  norm_num [Position.mk.injEq]

/-- C9: open_position fails with `InvalidPrice` exactly when the price is
non-positive (the state is returned unchanged only through the error, since
the Rust early return leaves `&mut self` untouched); on success it
overwrites `size`, `entry_price` and `position_margin` unconditionally and
leaves the leverage unchanged. -/
theorem open_position_spec (pos : Position) (s p m : ℚ) :
    (Position.open_position pos s p m = .error .invalidPrice ↔ p ≤ 0) ∧
    (0 < p →
      Position.open_position pos s p m =
        .ok { size := s, entry_price := p, position_margin := m, leverage := pos.leverage }) := by
  constructor
  · unfold Position.open_position
    split
    · simp_all
    · simp_all
  · intro hp
    unfold Position.open_position
    rw [if_neg (by linarith)]

/-- Witness for C9 at a concrete price. -/
theorem open_position_spec_witness :
    (Position.open_position ⟨0, 0, 0, 3⟩ 4 0 9 = .error .invalidPrice ↔ (0 : ℚ) ≤ 0) ∧
    ((0 : ℚ) < 2 →
      Position.open_position ⟨0, 0, 0, 3⟩ 4 2 9 =
        .ok { size := 4, entry_price := 2, position_margin := 9, leverage := 3 }) := by
  exact ⟨(open_position_spec ⟨0, 0, 0, 3⟩ 4 0 9).1,
    fun h => (open_position_spec ⟨0, 0, 0, 3⟩ 4 2 9).2 h⟩

/-- Truncation toward zero, modelling how Rust's `%` on the fixed-point
`Decimal` type relates to division: `a % b = a - b * trunc(a / b)`. -/
def ratTrunc (x : ℚ) : ℤ :=
  if 0 ≤ x then ⌊x⌋ else ⌈x⌉

/-- Remainder of fixed-point decimal division, as produced by Rust's `%` on
`Decimal` values (sign follows the dividend, truncated division). -/
def decMod (a b : ℚ) : ℚ :=
  a - b * ratTrunc (a / b)

/-- The price-filter configuration, from
`src/order_filters/price_filter.rs` (`PriceFilter`). -/
structure PriceFilter where
  /-- Minimum allowed price; `0` disables the bound. -/
  min_price : ℚ
  /-- Maximum allowed price; `0` disables the bound. -/
  max_price : ℚ
  /-- Interval a price can be increased or decreased by. -/
  tick_size : ℚ
  /-- Upper band relative to the mark price; `0` disables the bound. -/
  multiplier_up : ℚ
  /-- Lower band relative to the mark price; `0` disables the bound. -/
  multiplier_down : ℚ
deriving DecidableEq, Repr

/-- An order as seen by the validator and the price filter: an optional
limit price (`none` means a market order), a side and a positive size.  The
remaining fields of the source `Order` struct (id, timestamp, status) are
carried only where a claim needs them. -/
structure Order where
  /-- Order id, used as the key of the active-orders map. -/
  id : ℕ
  /-- Buy or sell. -/
  side : Side
  /-- Order size, denominated in the size currency. -/
  size : ℚ
  /-- Limit price; `none` for a market order. -/
  limit_price : Option ℚ
deriving DecidableEq, Repr

/-- PriceFilter.validate_order from `src/order_filters/price_filter.rs`:
market orders pass; limit orders run the min/max/step/band checks in
source order, returning the first failing check's error. -/
def PriceFilter.validate_order (f : PriceFilter) (order : Order) (mark_price : ℚ) :
    Except OrderError Unit :=
  match order.limit_price with
  | none => .ok ()
  | some limit_price =>
    if limit_price < f.min_price ∧ f.min_price ≠ 0 then
      .error .limitPriceBelowMin
    else if limit_price > f.max_price ∧ f.max_price ≠ 0 then
      .error .limitPriceAboveMax
    else if decMod (limit_price - f.min_price) f.tick_size ≠ 0 then
      .error .invalidOrderPriceStepSize
    else if limit_price > mark_price * f.multiplier_up ∧ f.multiplier_up ≠ 0 then
      .error .limitPriceAboveMultiple
    else if limit_price < mark_price * f.multiplier_down ∧ f.multiplier_down ≠ 0 then
      .error .limitPriceBelowMultiple
    else
      .ok ()

/-- The market-update tagged union as defined in
`src/types/market_update.rs`: exactly the two variants `Bba` and `Candle`.
This is the type consumed by `MarketState::update_state`. -/
inductive MarketUpdate where
  | bba (bid ask : ℚ)
  | candle (bid ask low high : ℚ)
deriving DecidableEq, Repr

/-- The market-update union that `PriceFilter::validate_market_update` in
`src/order_filters/price_filter.rs` pattern-matches on.  That function has a
`Trade { price, quantity, side }` arm although the `MarketUpdate` definition
under `src/types` carries no such variant; the `trade` constructor's fields
are taken from the spec's tagged-union interface. -/
inductive MarketUpdateF where
  | bba (bid ask : ℚ)
  | trade (price quantity : ℚ) (side : Side)
  | candle (bid ask low high : ℚ)
deriving DecidableEq, Repr

/-- Injection of the two-variant `MarketUpdate` into the filter's union,
used to model `update_state` handing its update to the price filter. -/
def MarketUpdate.toF : MarketUpdate → MarketUpdateF
  | .bba bid ask => .bba bid ask
  | .candle bid ask low high => .candle bid ask low high

/-- enforce_bid_ask_spread from `src/order_filters/price_filter.rs`. -/
def enforce_bid_ask_spread (bid ask : ℚ) : Except Error Unit :=
  if bid ≥ ask then .error .invalidMarketUpdateBidAskSpread else .ok ()

/-- enforce_min_price from `src/order_filters/price_filter.rs`; the bound is
disabled when `min_price = 0`. -/
def enforce_min_price (min_price price : ℚ) : Except Error Unit :=
  if price < min_price ∧ min_price ≠ 0 then .error .marketUpdatePriceTooLow else .ok ()

/-- enforce_max_price from `src/order_filters/price_filter.rs`; the bound is
disabled when `max_price = 0`. -/
def enforce_max_price (max_price price : ℚ) : Except Error Unit :=
  if price > max_price ∧ max_price ≠ 0 then .error .marketUpdatePriceTooHigh else .ok ()

/-- enforce_step_size from `src/order_filters/price_filter.rs`: the raw
price must be a multiple of the step size. -/
def enforce_step_size (step_size price : ℚ) : Except Error Unit :=
  if decMod price step_size ≠ 0 then .error .marketUpdatePriceStepSize else .ok ()

/-- PriceFilter.validate_market_update from
`src/order_filters/price_filter.rs`: every price of the update runs through
the min/max/step checks in source order; Bba and Candle updates additionally
require a positive bid-ask spread, candles a positive low-high spread. -/
def PriceFilter.validate_market_update (f : PriceFilter) (market_update : MarketUpdateF) :
    Except Error Unit :=
  match market_update with
  | .bba bid ask => do
    enforce_min_price f.min_price bid
    enforce_min_price f.min_price ask
    enforce_max_price f.max_price bid
    enforce_max_price f.max_price ask
    enforce_step_size f.tick_size bid
    enforce_step_size f.tick_size ask
    enforce_bid_ask_spread bid ask
  | .trade price _ _ => do
    enforce_min_price f.min_price price
    enforce_max_price f.max_price price
    enforce_step_size f.tick_size price
  | .candle bid ask low high => do
    enforce_min_price f.min_price bid
    enforce_min_price f.min_price ask
    enforce_min_price f.min_price low
    enforce_min_price f.min_price high
    enforce_max_price f.max_price bid
    enforce_max_price f.max_price ask
    enforce_max_price f.max_price low
    enforce_max_price f.max_price high
    enforce_step_size f.tick_size bid
    enforce_step_size f.tick_size ask
    enforce_step_size f.tick_size low
    enforce_step_size f.tick_size high
    enforce_bid_ask_spread bid ask
    enforce_bid_ask_spread low high

/-- The market state, from `src/market_state.rs` (`MarketState`).  The `i64`
timestamp is an integer and the `u64` step counter a natural number; the
`u64 → i64` cast of the timestamp argument is modelled explicitly by
`toI64`. -/
structure MarketState where
  /-- Price filter used to gate the updates. -/
  price_filter : PriceFilter
  /-- Current best bid. -/
  bid : ℚ
  /-- Current best ask. -/
  ask : ℚ
  /-- High of the last period. -/
  high : ℚ
  /-- Low of the last period. -/
  low : ℚ
  /-- Current timestamp in nanoseconds (`i64`). -/
  current_ts_ns : ℤ
  /-- Step counter used for synchronizing orders (`u64`). -/
  step : ℕ
deriving DecidableEq, Repr

/-- Two's-complement reinterpretation of a `u64` value as `i64`, modelling
Rust's `timestamp_ns as i64`. -/
def toI64 (t : ℕ) : ℤ :=
  if t < 2 ^ 63 then (t : ℤ) else (t : ℤ) - 2 ^ 64

/-- MarketState.update_state from `src/market_state.rs`: gate the update
through the price filter (returning the filter's error and the unchanged
state on failure), then commit bid/ask (Bba sets high := ask, low := bid;
Candle takes its own high/low), set the timestamp and bump the step. -/
def MarketState.update_state (s : MarketState) (timestamp_ns : ℕ)
    (market_update : MarketUpdate) : MarketState × Except Error Unit :=
  match s.price_filter.validate_market_update market_update.toF with
  | .error e => (s, .error e)
  | .ok _ =>
    let s1 :=
      match market_update with
      | .bba bid ask => { s with bid := bid, ask := ask, high := ask, low := bid }
      | .candle bid ask low high => { s with bid := bid, ask := ask, high := high, low := low }
    ({ s1 with current_ts_ns := toI64 timestamp_ns, step := s.step + 1 }, .ok ())

/-- Sequencing two unit-valued fallible checks succeeds exactly when both do. -/
theorem seq_ok_iff (x y : Except Error Unit) :
    (x >>= fun _ => y) = .ok () ↔ x = .ok () ∧ y = .ok () := by
  cases x with
  | error e => simp [Bind.bind, Except.bind]
  | ok u => cases u; simp [Bind.bind, Except.bind]

/-- Sequencing two unit-valued fallible checks fails with `e` exactly when
the first does, or the first succeeds and the second fails with `e`. -/
theorem seq_error_iff (x y : Except Error Unit) (e : Error) :
    (x >>= fun _ => y) = .error e ↔ x = .error e ∨ (x = .ok () ∧ y = .error e) := by
  cases x with
  | error e1 => simp [Bind.bind, Except.bind]
  | ok u => cases u; simp [Bind.bind, Except.bind]

/-- Success condition of the minimum-price check. -/
theorem enforce_min_price_ok (m p : ℚ) :
    enforce_min_price m p = .ok () ↔ ¬(p < m ∧ m ≠ 0) := by
  by_cases hc : p < m ∧ m ≠ 0
  · rw [enforce_min_price, if_pos hc]
    simp [hc]
  · rw [enforce_min_price, if_neg hc]
    simp [hc]

/-- Failure condition of the minimum-price check. -/
theorem enforce_min_price_error (m p : ℚ) (e : Error) :
    enforce_min_price m p = .error e ↔ (p < m ∧ m ≠ 0) ∧ e = .marketUpdatePriceTooLow := by
  by_cases hc : p < m ∧ m ≠ 0
  · rw [enforce_min_price, if_pos hc]
    simp [hc, eq_comm]
  · rw [enforce_min_price, if_neg hc]
    simp [hc]

/-- Success condition of the maximum-price check. -/
theorem enforce_max_price_ok (m p : ℚ) :
    enforce_max_price m p = .ok () ↔ ¬(p > m ∧ m ≠ 0) := by
  by_cases hc : p > m ∧ m ≠ 0
  · rw [enforce_max_price, if_pos hc]
    simp [hc]
  · rw [enforce_max_price, if_neg hc]
    simp [hc]

/-- Failure condition of the maximum-price check. -/
theorem enforce_max_price_error (m p : ℚ) (e : Error) :
    enforce_max_price m p = .error e ↔ (p > m ∧ m ≠ 0) ∧ e = .marketUpdatePriceTooHigh := by
  by_cases hc : p > m ∧ m ≠ 0
  · rw [enforce_max_price, if_pos hc]
    simp [hc, eq_comm]
  · rw [enforce_max_price, if_neg hc]
    simp [hc]

/-- Success condition of the step-size check. -/
theorem enforce_step_size_ok (t p : ℚ) :
    enforce_step_size t p = .ok () ↔ decMod p t = 0 := by
  unfold enforce_step_size
  split <;> simp_all

/-- Failure condition of the step-size check. -/
theorem enforce_step_size_error (t p : ℚ) (e : Error) :
    enforce_step_size t p = .error e ↔ decMod p t ≠ 0 ∧ e = .marketUpdatePriceStepSize := by
  unfold enforce_step_size
  split <;> simp_all [eq_comm]

/-- Success condition of the bid-ask-spread check. -/
theorem enforce_bid_ask_spread_ok (b a : ℚ) :
    enforce_bid_ask_spread b a = .ok () ↔ b < a := by
  unfold enforce_bid_ask_spread
  split <;> simp_all

/-- Failure condition of the bid-ask-spread check. -/
theorem enforce_bid_ask_spread_error (b a : ℚ) (e : Error) :
    enforce_bid_ask_spread b a = .error e ↔ b ≥ a ∧ e = .invalidMarketUpdateBidAskSpread := by
  unfold enforce_bid_ask_spread
  split <;> simp_all [eq_comm]

/-- A single price passes the filter's bounds and step check. -/
def pricePasses (f : PriceFilter) (p : ℚ) : Prop :=
  ¬(p < f.min_price ∧ f.min_price ≠ 0) ∧ ¬(p > f.max_price ∧ f.max_price ≠ 0) ∧
    decMod p f.tick_size = 0

/-- The prices carried by a market update, for stating which price a
rejection corresponds to. -/
def MarketUpdateF.prices : MarketUpdateF → List ℚ
  | .bba bid ask => [bid, ask]
  | .trade price _ _ => [price]
  | .candle bid ask low high => [bid, ask, low, high]

/-- C6: market orders always pass the price filter, and a limit order is
rejected with exactly one error, determined by the first failing check in
the order min-bound, max-bound, step-size, upper band, lower band (each
bound and band disabled when its parameter is 0); when no check fails,
validation succeeds. -/
theorem validate_order_spec (f : PriceFilter) (o : Order) (mark_price : ℚ) :
    (o.limit_price = none → f.validate_order o mark_price = .ok ()) ∧
    (∀ lp, o.limit_price = some lp →
      (f.validate_order o mark_price = .error .limitPriceBelowMin ↔
        lp < f.min_price ∧ f.min_price ≠ 0) ∧
      (f.validate_order o mark_price = .error .limitPriceAboveMax ↔
        ¬(lp < f.min_price ∧ f.min_price ≠ 0) ∧ (lp > f.max_price ∧ f.max_price ≠ 0)) ∧
      (f.validate_order o mark_price = .error .invalidOrderPriceStepSize ↔
        ¬(lp < f.min_price ∧ f.min_price ≠ 0) ∧ ¬(lp > f.max_price ∧ f.max_price ≠ 0) ∧
        decMod (lp - f.min_price) f.tick_size ≠ 0) ∧
      (f.validate_order o mark_price = .error .limitPriceAboveMultiple ↔
        ¬(lp < f.min_price ∧ f.min_price ≠ 0) ∧ ¬(lp > f.max_price ∧ f.max_price ≠ 0) ∧
        decMod (lp - f.min_price) f.tick_size = 0 ∧
        (lp > mark_price * f.multiplier_up ∧ f.multiplier_up ≠ 0)) ∧
      (f.validate_order o mark_price = .error .limitPriceBelowMultiple ↔
        ¬(lp < f.min_price ∧ f.min_price ≠ 0) ∧ ¬(lp > f.max_price ∧ f.max_price ≠ 0) ∧
        decMod (lp - f.min_price) f.tick_size = 0 ∧
        ¬(lp > mark_price * f.multiplier_up ∧ f.multiplier_up ≠ 0) ∧
        (lp < mark_price * f.multiplier_down ∧ f.multiplier_down ≠ 0)) ∧
      (f.validate_order o mark_price = .ok () ↔
        ¬(lp < f.min_price ∧ f.min_price ≠ 0) ∧ ¬(lp > f.max_price ∧ f.max_price ≠ 0) ∧
        decMod (lp - f.min_price) f.tick_size = 0 ∧
        ¬(lp > mark_price * f.multiplier_up ∧ f.multiplier_up ≠ 0) ∧
        ¬(lp < mark_price * f.multiplier_down ∧ f.multiplier_down ≠ 0))) := by
  constructor
  · intro h
    simp [PriceFilter.validate_order, h]
  · intro lp h
    simp only [PriceFilter.validate_order, h]
    split_ifs with h1 h2 h3 h4 h5
    all_goals try simp_all
    all_goals tauto

/-- Witness for C6: a concrete market order passes a concrete filter. -/
theorem validate_order_spec_witness :
    PriceFilter.validate_order ⟨1/10, 1000, 1/10, 6/5, 4/5⟩ ⟨0, .buy, 1, none⟩ 100 = .ok () :=
  (validate_order_spec ⟨1/10, 1000, 1/10, 6/5, 4/5⟩ ⟨0, .buy, 1, none⟩ 100).1 rfl

/-- Spread conditions of a market update as the claim states them: `bid <
ask` for Bba and Candle, additionally `low < high` for Candle. -/
def spreadConds : MarketUpdateF → Prop
  | .bba bid ask => bid < ask
  | .trade _ _ _ => True
  | .candle bid ask low high => bid < ask ∧ low < high

/-- The error a market-update rejection corresponds to: a too-low error
names a price below the enabled minimum, a too-high error a price above
the enabled maximum, a step-size error a price off the tick grid, a spread
error a violated spread condition. -/
def errorCorresponds (f : PriceFilter) (u : MarketUpdateF) : Error → Prop
  | .marketUpdatePriceTooLow => ∃ p ∈ u.prices, p < f.min_price ∧ f.min_price ≠ 0
  | .marketUpdatePriceTooHigh => ∃ p ∈ u.prices, p > f.max_price ∧ f.max_price ≠ 0
  | .marketUpdatePriceStepSize => ∃ p ∈ u.prices, decMod p f.tick_size ≠ 0
  | .invalidMarketUpdateBidAskSpread => ¬spreadConds u
  | .invalidPrice => False

/-- C7 counterexample: the market-update step check uses the raw price, not
the min-price-anchored offset the claim states.  With `min_price = 1`,
`max_price` disabled, `tick_size = 2`, the Bba update (bid 3, ask 5) has
`(price − min_price) mod tick_size = 0` for both prices, passes both bounds
and has `bid < ask`, so the claim says validation succeeds; the code rejects
it with `MarketUpdatePriceStepSize` because `3 mod 2 ≠ 0`. -/
theorem validate_market_update_counterexample :
    decMod ((3 : ℚ) - 1) 2 = 0 ∧ decMod ((5 : ℚ) - 1) 2 = 0 ∧
    ¬((3 : ℚ) < 1) ∧ ¬((5 : ℚ) < 1) ∧ (3 : ℚ) < 5 ∧
    PriceFilter.validate_market_update ⟨1, 0, 2, 0, 0⟩ (.bba 3 5) =
      .error .marketUpdatePriceStepSize := by
  refine ⟨by norm_num [decMod, ratTrunc], by norm_num [decMod, ratTrunc],
    by norm_num, by norm_num, by norm_num, ?_⟩
  have h3 : decMod (3 : ℚ) 2 = 1 := by norm_num [decMod, ratTrunc]
  simp [PriceFilter.validate_market_update, enforce_min_price, enforce_max_price,
    enforce_step_size, Bind.bind, Except.bind, h3]

/-- Propagating the error correspondence through sequenced checks. -/
theorem chain_corresponds {P : Error → Prop} (x y : Except Error Unit)
    (hx : ∀ e, x = .error e → P e) (hy : ∀ e, y = .error e → P e) :
    ∀ e, (x >>= fun _ => y) = .error e → P e := by
  intro e he
  rw [seq_error_iff] at he
  rcases he with h | ⟨-, h⟩
  · exact hx e h
  · exact hy e h

/-- A failing min-price check on a price of the update corresponds to a
too-low error. -/
theorem corr_min (f : PriceFilter) (u : MarketUpdateF) (p : ℚ) (hp : p ∈ u.prices) :
    ∀ e, enforce_min_price f.min_price p = .error e → errorCorresponds f u e := by
  intro e he
  rw [enforce_min_price_error] at he
  obtain ⟨hc, rfl⟩ := he
  exact ⟨p, hp, hc⟩

/-- A failing max-price check on a price of the update corresponds to a
too-high error. -/
theorem corr_max (f : PriceFilter) (u : MarketUpdateF) (p : ℚ) (hp : p ∈ u.prices) :
    ∀ e, enforce_max_price f.max_price p = .error e → errorCorresponds f u e := by
  intro e he
  rw [enforce_max_price_error] at he
  obtain ⟨hc, rfl⟩ := he
  exact ⟨p, hp, hc⟩

/-- A failing step-size check on a price of the update corresponds to a
step-size error. -/
theorem corr_step (f : PriceFilter) (u : MarketUpdateF) (p : ℚ) (hp : p ∈ u.prices) :
    ∀ e, enforce_step_size f.tick_size p = .error e → errorCorresponds f u e := by
  intro e he
  rw [enforce_step_size_error] at he
  obtain ⟨hc, rfl⟩ := he
  exact ⟨p, hp, hc⟩

/-- A failing spread check on a Bba update corresponds to a spread error. -/
theorem corr_spread_bba (f : PriceFilter) (bid ask : ℚ) :
    ∀ e, enforce_bid_ask_spread bid ask = .error e →
      errorCorresponds f (.bba bid ask) e := by
  intro e he
  rw [enforce_bid_ask_spread_error] at he
  obtain ⟨hc, rfl⟩ := he
  exact not_lt.mpr hc

/-- A failing bid-ask spread check on a Candle update corresponds to a
spread error. -/
theorem corr_spread_candle_ba (f : PriceFilter) (bid ask low high : ℚ) :
    ∀ e, enforce_bid_ask_spread bid ask = .error e →
      errorCorresponds f (.candle bid ask low high) e := by
  intro e he
  rw [enforce_bid_ask_spread_error] at he
  obtain ⟨hc, rfl⟩ := he
  exact fun hs => absurd hs.1 (not_lt.mpr hc)

/-- A failing low-high spread check on a Candle update corresponds to a
spread error. -/
theorem corr_spread_candle_lh (f : PriceFilter) (bid ask low high : ℚ) :
    ∀ e, enforce_bid_ask_spread low high = .error e →
      errorCorresponds f (.candle bid ask low high) e := by
  intro e he
  rw [enforce_bid_ask_spread_error] at he
  obtain ⟨hc, rfl⟩ := he
  exact fun hs => absurd hs.2 (not_lt.mpr hc)

/-- C7 (amended): validate_market_update succeeds exactly when every price
carried by the update passes the enabled min-price bound, the enabled
max-price bound and the step-size check `price mod tick_size = 0` (the raw
price, not the offset from `min_price`), with `bid < ask` for Bba and
Candle and `low < high` for Candle; a rejection returns an error
corresponding to a violated check. -/
theorem validate_market_update_spec (f : PriceFilter) (u : MarketUpdateF) :
    (f.validate_market_update u = .ok () ↔
      (∀ p ∈ u.prices, pricePasses f p) ∧ spreadConds u) ∧
    (∀ e, f.validate_market_update u = .error e → errorCorresponds f u e) := by
  constructor
  · cases u <;>
      simp [PriceFilter.validate_market_update, seq_ok_iff, enforce_min_price_ok,
        enforce_max_price_ok, enforce_step_size_ok, enforce_bid_ask_spread_ok,
        MarketUpdateF.prices, spreadConds, pricePasses] <;>
      tauto
  · cases u with
    | bba bid ask =>
      intro e he
      simp only [PriceFilter.validate_market_update] at he
      refine chain_corresponds _ _ ?_ (chain_corresponds _ _ ?_ (chain_corresponds _ _ ?_
        (chain_corresponds _ _ ?_ (chain_corresponds _ _ ?_ (chain_corresponds _ _ ?_
        ?_))))) e he <;>
        first
          | exact corr_min f _ _ (by simp [MarketUpdateF.prices])
          | exact corr_max f _ _ (by simp [MarketUpdateF.prices])
          | exact corr_step f _ _ (by simp [MarketUpdateF.prices])
          | exact corr_spread_bba f bid ask
    | trade price quantity side =>
      intro e he
      simp only [PriceFilter.validate_market_update] at he
      refine chain_corresponds _ _ ?_ (chain_corresponds _ _ ?_ ?_) e he <;>
        first
          | exact corr_min f _ _ (by simp [MarketUpdateF.prices])
          | exact corr_max f _ _ (by simp [MarketUpdateF.prices])
          | exact corr_step f _ _ (by simp [MarketUpdateF.prices])
    | candle bid ask low high =>
      intro e he
      simp only [PriceFilter.validate_market_update] at he
      refine chain_corresponds _ _ ?_ (chain_corresponds _ _ ?_ (chain_corresponds _ _ ?_
        (chain_corresponds _ _ ?_ (chain_corresponds _ _ ?_ (chain_corresponds _ _ ?_
        (chain_corresponds _ _ ?_ (chain_corresponds _ _ ?_ (chain_corresponds _ _ ?_
        (chain_corresponds _ _ ?_ (chain_corresponds _ _ ?_ (chain_corresponds _ _ ?_
        (chain_corresponds _ _ ?_ ?_)))))))))))) e he <;>
        first
          | exact corr_min f _ _ (by simp [MarketUpdateF.prices])
          | exact corr_max f _ _ (by simp [MarketUpdateF.prices])
          | exact corr_step f _ _ (by simp [MarketUpdateF.prices])
          | exact corr_spread_candle_ba f bid ask low high
          | exact corr_spread_candle_lh f bid ask low high

/-- Witness for C7 at a concrete rejected update. -/
theorem validate_market_update_spec_witness :
    errorCorresponds ⟨1, 0, 2, 0, 0⟩ (.bba 3 5) .marketUpdatePriceStepSize :=
  (validate_market_update_spec ⟨1, 0, 2, 0, 0⟩ (.bba 3 5)).2 .marketUpdatePriceStepSize (by
    have h3 : decMod (3 : ℚ) 2 = 1 := by norm_num [decMod, ratTrunc]
    simp [PriceFilter.validate_market_update, enforce_min_price, enforce_max_price,
      enforce_step_size, Bind.bind, Except.bind, h3])

/-- C8: if the price filter rejects the update, update_state returns that
error with the whole state unchanged; if it accepts, the call succeeds,
commits the update's bid and ask (a Candle supplying its own high and low, a
Bba setting high to the new ask and low to the new bid), sets the timestamp
to the supplied value (which the `i64` field represents exactly below
`2 ^ 63`) and increments the step by exactly one. -/
theorem update_state_spec (s : MarketState) (t : ℕ) (u : MarketUpdate) :
    (∀ e, s.price_filter.validate_market_update u.toF = .error e →
      s.update_state t u = (s, .error e)) ∧
    (s.price_filter.validate_market_update u.toF = .ok () → t < 2 ^ 63 →
      s.update_state t u =
        (match u with
         | .bba bid ask =>
             MarketState.mk s.price_filter bid ask ask bid (t : ℤ) (s.step + 1)
         | .candle bid ask low high =>
             MarketState.mk s.price_filter bid ask high low (t : ℤ) (s.step + 1),
         .ok ())) := by
  constructor
  · intro e he
    simp [MarketState.update_state, he]
  · intro hok ht
    cases u <;> simp [MarketState.update_state, hok, toI64, ht] <;> norm_num at ht ⊢ <;>
      omega

/-- Witness for C8: a concrete accepted Bba update commits bid, ask,
high, low, the timestamp and the incremented step. -/
theorem update_state_spec_witness :
    MarketState.update_state ⟨⟨0, 0, 1, 0, 0⟩, 0, 0, 0, 0, 0, 0⟩ 7 (.bba 100 101) =
      (⟨⟨0, 0, 1, 0, 0⟩, 100, 101, 101, 100, 7, 1⟩, .ok ()) := by
  have h := (update_state_spec ⟨⟨0, 0, 1, 0, 0⟩, 0, 0, 0, 0, 0, 0⟩ 7 (.bba 100 101)).2 (by
    have h1 : decMod (100 : ℚ) 1 = 0 := by norm_num [decMod, ratTrunc]
    have h2 : decMod (101 : ℚ) 1 = 0 := by norm_num [decMod, ratTrunc]
    simp [PriceFilter.validate_market_update, MarketUpdate.toF, enforce_min_price,
      enforce_max_price, enforce_step_size, enforce_bid_ask_spread, Bind.bind,
      Except.bind, h1, h2]
    norm_num) (by norm_num)
  simpa using h

/-- C10 counterexample: the market-update union consumed by update_state
has no third variant; there is no update that is neither a Bba nor a
Candle, so no Trade update can be constructed and supplied to the engine. -/
theorem market_update_no_trade :
    ¬∃ u : MarketUpdate, ∀ b a l h : ℚ, u ≠ .bba b a ∧ u ≠ .candle b a l h := by
  rintro ⟨u, hu⟩
  cases u with
  | bba b a => exact (hu b a 0 0).1 rfl
  | candle b a l h => exact (hu b a l h).2 rfl

/-- C10 (amended): the market-update tagged union accepted by update_state
has exactly the two variants `Bba { bid, ask }` and
`Candle { bid, ask, low, high }`. -/
theorem market_update_variants (u : MarketUpdate) :
    (∃ bid ask, u = .bba bid ask) ∨ (∃ bid ask low high, u = .candle bid ask low high) := by
  cases u with
  | bba b a => exact .inl ⟨b, a, rfl⟩
  | candle b a l h => exact .inr ⟨b, a, l, h, rfl⟩

/-- Modelled from the spec: the account aggregate (§3, §4.7) as read by the
validator — available balance and order margin of the margin ledger,
position size and leverage, the summed sizes of open buy- and sell-side
limit orders, and the active limit-order map (represented as a list with
unique ids).  The `Account`, `Margin` and `Position` sources of this
(older, `f64`-based) engine version are not under src; only the fields the
validator reads are carried. -/
structure Account where
  /-- Available balance: wallet minus position and order margin. -/
  available_balance : ℚ
  /-- Currently committed order margin of the margin ledger. -/
  order_margin : ℚ
  /-- Signed position size. -/
  position_size : ℚ
  /-- Position leverage. -/
  leverage : ℚ
  /-- Total size of open buy limit orders. -/
  open_limit_buy_size : ℚ
  /-- Total size of open sell limit orders. -/
  open_limit_sell_size : ℚ
  /-- The active limit orders, keyed by id. -/
  active_limit_orders : List Order
deriving DecidableEq, Repr

/-- The order validator, from `src/validator.rs` (`Validator`): fee rates,
current best bid and ask, and the futures flavor. -/
structure Validator where
  /-- Maker fee rate. -/
  fee_maker : ℚ
  /-- Taker fee rate. -/
  fee_taker : ℚ
  /-- Current best bid. -/
  bid : ℚ
  /-- Current best ask. -/
  ask : ℚ
  /-- Linear or inverse futures. -/
  futures_type : FuturesTypes
deriving DecidableEq, Repr

/-- Validator.order_cost_market from `src/validator.rs`: the debited and
credited balance deltas of a market order, by cases on the position sign,
scaled by leverage, plus the taker fee, all converted at the relevant best
price (ask for a buy, bid for a sell). -/
def Validator.order_cost_market (v : Validator) (order : Order) (acc : Account) : ℚ × ℚ :=
  let pos_size := acc.position_size
  let dc : ℚ × ℚ :=
    if pos_size = 0 then
      match order.side with
      | .buy => (min order.size acc.open_limit_sell_size, order.size)
      | .sell => (min order.size acc.open_limit_buy_size, order.size)
    else if pos_size > 0 then
      match order.side with
      | .buy => (0, order.size)
      | .sell => (min order.size acc.position_size, max 0 (order.size - acc.position_size))
    else
      match order.side with
      | .buy => (min order.size |acc.position_size|, max 0 (order.size - |acc.position_size|))
      | .sell => (0, order.size)
  let debit := dc.1 / acc.leverage
  let credit := dc.2 / acc.leverage
  let fee := order.size * v.fee_taker
  let price := match order.side with | .buy => v.ask | .sell => v.bid
  let fdc : ℚ × ℚ × ℚ :=
    match v.futures_type with
    | .linear => (fee * price, debit * price, credit * price)
    | .inverse => (fee / price, debit / price, credit / price)
  (fdc.2.1, fdc.2.2 + fdc.1)

/-- Validator.validate_market_order from `src/validator.rs`: rejects with
`NotEnoughAvailableBalance` when the credited delta exceeds the available
balance plus the debited delta. -/
def Validator.validate_market_order (v : Validator) (o : Order) (acc : Account) :
    Except OrderError Unit :=
  let dc := v.order_cost_market o acc
  if dc.2 > acc.available_balance + dc.1 then .error .notEnoughAvailableBalance
  else .ok ()

/-- The claim's market-order debit/credit formula, stated in the claim's own
words: case split flat/long/short, then division by leverage, taker fee
added to the credit, and conversion of debit, credit and fee through the
relevant price (multiplied for linear futures, divided for inverse). -/
def claimMarketOrderCost (v : Validator) (order : Order) (acc : Account) : ℚ × ℚ :=
  let dc : ℚ × ℚ :=
    if acc.position_size = 0 then
      match order.side with
      | .buy => (min order.size acc.open_limit_sell_size, order.size)
      | .sell => (min order.size acc.open_limit_buy_size, order.size)
    else if acc.position_size > 0 then
      match order.side with
      | .buy => (0, order.size)
      | .sell => (min order.size acc.position_size, max 0 (order.size - acc.position_size))
    else
      match order.side with
      | .buy => (min order.size |acc.position_size|, max 0 (order.size - |acc.position_size|))
      | .sell => (0, order.size)
  let fee := order.size * v.fee_taker
  let price := match order.side with | .buy => v.ask | .sell => v.bid
  match v.futures_type with
  | .linear => (dc.1 / acc.leverage * price, dc.2 / acc.leverage * price + fee * price)
  | .inverse => (dc.1 / acc.leverage / price, dc.2 / acc.leverage / price + fee / price)

/-- C1: validate_market_order rejects with `NotEnoughAvailableBalance`
exactly when the claim's credit exceeds the available balance plus the
claim's debit, with debit and credit computed by the flat/long/short case
split, leverage division, taker fee and price conversion as the claim
states them. -/
theorem validate_market_order_spec (v : Validator) (o : Order) (acc : Account) :
    v.validate_market_order o acc = .error .notEnoughAvailableBalance ↔
      (claimMarketOrderCost v o acc).2 >
        acc.available_balance + (claimMarketOrderCost v o acc).1 := by
  have hd : claimMarketOrderCost v o acc = v.order_cost_market o acc := by
    unfold claimMarketOrderCost Validator.order_cost_market
    cases v.futures_type <;> rfl
  rw [hd]
  unfold Validator.validate_market_order
  simp only []
  split_ifs with h <;> simp_all

/-- Modelled from the spec: the worst-side limit-order margin formula of
§4.5 (`order_margin` in `src/limit_order_margin.rs`, which is not under
src).  Partition the orders by side; per side take the total size and the
notional-weighted average price; subtract from the buy size up to
`max(0, −position_size)` and from the sell size up to `max(0, position_size)`
of offsetting quantity; each side's margin is its remaining size at its
average price over the leverage (inverse futures divide by the price); the
result is the larger side plus per-order maker fees on both sides. -/
def order_margin (orders : List Order) (pos_size : ℚ) (ft : FuturesTypes)
    (leverage fee_maker : ℚ) : ℚ :=
  let buys := orders.filter fun o => o.side == Side.buy
  let sells := orders.filter fun o => o.side == Side.sell
  let buy_size := (buys.map (·.size)).sum
  let sell_size := (sells.map (·.size)).sum
  let buy_notional := (buys.map fun o => o.size * o.limit_price.getD 0).sum
  let sell_notional := (sells.map fun o => o.size * o.limit_price.getD 0).sum
  let buy_avg := if buy_size = 0 then 0 else buy_notional / buy_size
  let sell_avg := if sell_size = 0 then 0 else sell_notional / sell_size
  let buy_remaining := max 0 (buy_size - max 0 (-pos_size))
  let sell_remaining := max 0 (sell_size - max 0 pos_size)
  let side_margin : ℚ → ℚ → ℚ := fun sz avg =>
    match ft with
    | .linear => sz * avg / leverage
    | .inverse => if avg = 0 then 0 else sz / (avg * leverage)
  let order_fee : Order → ℚ := fun o =>
    match ft with
    | .linear => o.size * fee_maker * o.limit_price.getD 0
    | .inverse => o.size * fee_maker / o.limit_price.getD 0
  max (side_margin buy_remaining buy_avg) (side_margin sell_remaining sell_avg) +
    (orders.map order_fee).sum

/-- Map insertion on the active-limit-order list keyed by id, modelling the
`HashMap::insert` in `Validator::limit_order_margin_cost`: a colliding id is
replaced. -/
def insert_order (orders : List Order) (o : Order) : List Order :=
  o :: orders.filter fun x => x.id != o.id

/-- Validator.limit_order_margin_cost from `src/validator.rs`: the §4.5
formula over the active orders with the candidate inserted, minus the
account's committed order margin. -/
def Validator.limit_order_margin_cost (v : Validator) (o : Order) (acc : Account) : ℚ :=
  order_margin (insert_order acc.active_limit_orders o) acc.position_size v.futures_type
    acc.leverage v.fee_maker - acc.order_margin

/-- The margin branch of `Validator::validate_limit_order`, shared by both
sides: reject `NotEnoughAvailableBalance` when the incremental order margin
exceeds the available balance, otherwise return it. -/
def Validator.check_order_margin (v : Validator) (o : Order) (acc : Account) :
    Except OrderError ℚ :=
  let om := v.limit_order_margin_cost o acc
  if om > acc.available_balance then .error .notEnoughAvailableBalance else .ok om

/-- Validator.validate_limit_order from `src/validator.rs`: reject
`InvalidLimitPrice` when a buy's limit price is above the ask or a sell's
below the bid (the source unwraps the limit price, so a missing one is read
as 0 here; the claims only concern limit orders), then check the
incremental order margin against the available balance. -/
def Validator.validate_limit_order (v : Validator) (o : Order) (acc : Account) :
    Except OrderError ℚ :=
  match o.side with
  | .buy =>
    if o.limit_price.getD 0 > v.ask then .error .invalidLimitPrice
    else v.check_order_margin o acc
  | .sell =>
    if o.limit_price.getD 0 < v.bid then .error .invalidLimitPrice
    else v.check_order_margin o acc

/-- C2: validate_limit_order rejects with `InvalidLimitPrice` exactly when
a buy's limit price is above the ask or a sell's below the bid; with a
valid price it computes the incremental order margin — the §4.5 formula
on the active orders with `o` inserted, minus the account's committed
order margin — rejects with `NotEnoughAvailableBalance` when that delta
exceeds the available balance, and returns the delta otherwise. -/
theorem validate_limit_order_spec (v : Validator) (o : Order) (acc : Account) (lp : ℚ)
    (hlp : o.limit_price = some lp) :
    (v.validate_limit_order o acc = .error .invalidLimitPrice ↔
      (o.side = .buy ∧ lp > v.ask) ∨ (o.side = .sell ∧ lp < v.bid)) ∧
    ((o.side = .buy → lp ≤ v.ask) → (o.side = .sell → v.bid ≤ lp) →
      ((order_margin (insert_order acc.active_limit_orders o) acc.position_size
          v.futures_type acc.leverage v.fee_maker - acc.order_margin >
            acc.available_balance →
          v.validate_limit_order o acc = .error .notEnoughAvailableBalance) ∧
       (order_margin (insert_order acc.active_limit_orders o) acc.position_size
          v.futures_type acc.leverage v.fee_maker - acc.order_margin ≤
            acc.available_balance →
          v.validate_limit_order o acc =
            .ok (order_margin (insert_order acc.active_limit_orders o) acc.position_size
              v.futures_type acc.leverage v.fee_maker - acc.order_margin)))) := by
  have hcheck : ∀ q : ℚ, v.limit_order_margin_cost o acc = q →
      v.check_order_margin o acc =
        if q > acc.available_balance then .error .notEnoughAvailableBalance else .ok q := by
    intro q hq
    unfold Validator.check_order_margin
    rw [hq]
  constructor
  · cases hs : o.side <;>
      simp only [Validator.validate_limit_order, hs, hlp, Option.getD_some] <;>
      split_ifs with h <;>
      simp_all [Validator.check_order_margin] <;>
      split_ifs <;>
      simp_all
  · intro hbuy hsell
    have hok : v.validate_limit_order o acc = v.check_order_margin o acc := by
      cases hs : o.side <;>
        simp only [Validator.validate_limit_order, hs, hlp, Option.getD_some] <;>
        rw [if_neg]
      · exact not_lt.mpr (hbuy hs)
      · exact not_lt.mpr (hsell hs)
    rw [hok, hcheck _ rfl]
    unfold Validator.limit_order_margin_cost
    constructor
    · intro h
      rw [if_pos h]
    · intro h
      rw [if_neg (not_lt.mpr h)]

/-- Witness for C2: a concrete admissible limit buy order is accepted and
returns its incremental order margin of 100. -/
theorem validate_limit_order_spec_witness :
    Validator.validate_limit_order ⟨0, 0, 100, 101, .linear⟩ ⟨1, .buy, 1, some 100⟩
      ⟨200, 0, 0, 1, 0, 0, []⟩ = .ok 100 := by
  have h := (validate_limit_order_spec ⟨0, 0, 100, 101, .linear⟩ ⟨1, .buy, 1, some 100⟩
      ⟨200, 0, 0, 1, 0, 0, []⟩ 100 rfl).2 (fun _ => by norm_num) (fun hs => by simp at hs)
  have hm : order_margin (insert_order ([] : List Order) ⟨1, .buy, 1, some 100⟩) 0 .linear 1 0 =
      100 := by
    simp [order_margin, insert_order]
  rw [show (⟨200, 0, 0, 1, 0, 0, []⟩ : Account).active_limit_orders = [] from rfl] at h
  have h2 := h.2 (by rw [hm]; norm_num)
  rw [hm] at h2
  simpa using h2
